import Mathlib

/-!
Verification of the eBay sold-listings scraper (`src/scraper.py`) against its
natural-language specification.

Modelling conventions:
* Python strings are `List Char`; `String.toList` is used for literals.
* Python's `re` digit class `\d` is modelled as ASCII digits (`Char.isDigit`),
  the case relevant to the scraped marketplace text.
* Monetary amounts are `ℚ` (Python floats restricted to the decimal values the
  parser produces); calendar dates are day numbers in `ℤ`, with `now` given by
  its day number `today` (dates parsed from listings carry no time of day, so
  `(datetime.now() - date).days` equals `today - soldDay`).
* The third-party fuzzy date parser `dateutil.parser.parse` is an external
  library, not repository code; it is modelled as an explicit parameter
  `duP : List Char → Option ℤ`, `none` standing for the `ValueError` it raises
  on text without a date.
* Python exceptions are `Option`/`Except` failures.
-/

namespace EbayScraper

/-- Characters the model treats as decimal digits (`re`'s `\d` on the ASCII
titles and prices the scraper handles). -/
def isDig (c : Char) : Bool := c.isDigit

/-- Accumulator pass for `digitRuns`: `cur` holds the digits of the run being
read, in reverse order. -/
def digitRunsAux : List Char → List Char → List (List Char)
  | [], cur => if cur = [] then [] else [cur.reverse]
  | c :: cs, cur =>
    if isDig c then digitRunsAux cs (c :: cur)
    else if cur = [] then digitRunsAux cs [] else cur.reverse :: digitRunsAux cs []

/-- `re.findall(r'\d+', title)`: the maximal runs of digits in `title`, in
order of occurrence, with multiplicity. -/
def digitRuns (s : List Char) : List (List Char) := digitRunsAux s []

/-- `EbayScraper.is_valid_title` (scraper.py:62-89).  Collects the extracted
numbers whose digit length equals the target's; rejects when more than one
(`len(same_length_numbers) > 1`), compares against the target when exactly
one, rejects when none. -/
def is_valid_title (title target : List Char) : Bool :=
  match (digitRuns title).filter (fun n => n.length == target.length) with
  | [n] => n == target
  | _ => false

/-- The title-acceptance rule as the specification words it: look at the SET
of maximal digit runs (distinct values), accept iff it contains exactly one
run of the target's length and that run is the target. -/
def validTitleDistinct (title target : List Char) : Bool :=
  match ((digitRuns title).dedup).filter (fun n => n.length == target.length) with
  | [n] => n == target
  | _ => false

/-- One left-to-right pass of Python's `str.replace(pat, rep)`, driven by a
fuel counter.  Each step consumes at least one character of the remaining
string, so fuel `s.length` (as supplied by `replacePat`) never runs out; the
`0` case returns the remainder unchanged only to make the recursion
structural and kernel-computable. -/
def replacePatAux (pat rep : List Char) : Nat → List Char → List Char
  | 0, s => s
  | _ + 1, [] => []
  | fuel + 1, c :: cs =>
    match pat with
    | [] => c :: cs
    | p :: ps =>
      if (p :: ps).isPrefixOf (c :: cs) then
        rep ++ replacePatAux pat rep fuel (cs.drop ps.length)
      else c :: replacePatAux pat rep fuel cs

/-- Python `s.replace(pat, rep)` (for the non-empty patterns the scraper
uses): replace every non-overlapping occurrence of `pat`, left to right. -/
def replacePat (pat rep s : List Char) : List Char := replacePatAux pat rep s.length s

/-- Python `s.strip()`: drop leading and trailing whitespace. -/
def pyStrip (s : List Char) : List Char :=
  ((s.dropWhile Char.isWhitespace).reverse.dropWhile Char.isWhitespace).reverse

/-- Value of a digit string as a natural number. -/
def digitsToNat (l : List Char) : Nat :=
  l.foldl (fun a c => 10 * a + (c.toNat - '0'.toNat)) 0

/-- The decimal value `ip.fp` denoted by an integer digit part and a
fractional digit part, as `float()` reads the matched token (the model uses
exact decimals for Python's floats; every value the claims touch is exactly
representable). -/
def ratOfParts (ip fp : List Char) : ℚ :=
  mkRat (digitsToNat ip * 10 ^ fp.length + digitsToNat fp) (10 ^ fp.length)

/-- `re.search(r'\d+[.,]?\d*', s)` followed by `float(...)` on the match:
find the first digit, take the maximal digit run, optionally one `.` or `,`
and a further digit run, and read the decimal value; `none` when `s` has no
digit (the `AttributeError` branch of `parse_price`). -/
def searchNum (s : List Char) : Option ℚ :=
  match s.dropWhile (fun c => !(isDig c)) with
  | [] => none
  | t :: ts =>
    some (ratOfParts ((t :: ts).takeWhile isDig)
      (match (t :: ts).dropWhile isDig with
       | c :: r => if c = '.' ∨ c = ',' then r.takeWhile isDig else []
       | [] => []))

/-- `EbayScraper.parse_price` (scraper.py:91-105).  `none` is Python `None`;
`None` and `""` are falsy, so both return `0`.  Otherwise the currency
markers `EUR` and `€` are removed, the result stripped, `,` turned into `.`,
and the first numeric token parsed; a string with no digit hits the
`AttributeError` handler and yields `0`. -/
def parse_price (o : Option (List Char)) : ℚ :=
  match o with
  | none => 0
  | some sRaw =>
    if sRaw = [] then 0
    else
      match searchNum ((pyStrip (replacePat "€".toList [] (replacePat "EUR".toList [] sRaw))).map
          (fun c => if c = ',' then '.' else c)) with
      | none => 0
      | some q => q

/-- The German-to-English month token table of `parse_date`, in the source's
(insertion) order. -/
def germanToEnglish : List (List Char × List Char) :=
  [("Jan".toList, "Jan".toList), ("Jän".toList, "Jan".toList), ("Januar".toList, "January".toList),
   ("Feb".toList, "Feb".toList), ("Februar".toList, "February".toList),
   ("Mär".toList, "Mar".toList), ("März".toList, "March".toList),
   ("Apr".toList, "Apr".toList), ("April".toList, "April".toList),
   ("Mai".toList, "May".toList),
   ("Jun".toList, "Jun".toList), ("Juni".toList, "June".toList),
   ("Jul".toList, "Jul".toList), ("Juli".toList, "July".toList),
   ("Aug".toList, "Aug".toList), ("August".toList, "August".toList),
   ("Sep".toList, "Sep".toList), ("September".toList, "September".toList),
   ("Okt".toList, "Oct".toList), ("Oktober".toList, "October".toList),
   ("Nov".toList, "Nov".toList), ("November".toList, "November".toList),
   ("Dez".toList, "Dec".toList), ("Dezember".toList, "December".toList)]

/-- The cleaning `parse_date` performs before handing the text to the fuzzy
parser: strip the boilerplate `Verkauft`, `Beendet:`, `am`, strip whitespace,
then apply the month-token replacements in table order. -/
def cleanDate (s : List Char) : List Char :=
  germanToEnglish.foldl (fun acc pr => replacePat pr.1 pr.2 acc)
    (pyStrip (replacePat "am".toList []
      (replacePat "Beendet:".toList [] (replacePat "Verkauft".toList [] s))))

/-- `EbayScraper.parse_date` (scraper.py:107-146), with the external
`dateutil.parser.parse(·, fuzzy=True)` supplied as `duP` (`none` = raised).
`None` and `""` are falsy and return `None`; otherwise the cleaned text is
fuzzy-parsed and formatted as `%Y-%m-%d` — at day resolution the formatted
string denotes the parsed day itself, so the model returns the day number.
Any parse failure is caught and becomes `None`. -/
def parse_date (duP : List Char → Option ℤ) (o : Option (List Char)) : Option ℤ :=
  match o with
  | none => none
  | some s => if s = [] then none else duP (cleanDate s)

/-- `EbayScraper.is_within_30_days` (scraper.py:148-160), at day resolution
with `today` the day number of `datetime.now()`.  Falsy input (absent or
empty text) is accepted outright.  Otherwise the code re-parses
`parse_date(date_str) or ''`: when `parse_date` failed this parses `''`,
which raises (`none` here — the caller's per-item handler catches it); when
it succeeded, the ISO string round-trips to the same day `d` at midnight, and
`(datetime.now() - d).days` is `today - d`, accepted iff `≤ 30`.  (The
source's `if not date:` guard is dead code: a parsed `datetime` is always
truthy.) -/
def is_within_30_days (today : ℤ) (duP : List Char → Option ℤ)
    (o : Option (List Char)) : Option Bool :=
  match o with
  | none => some true
  | some s =>
    if s = [] then some true
    else
      match parse_date duP (some s) with
      | none => none
      | some d => some (decide (today - d ≤ 30))

/-- One parsed listing node (`li.s-item`), as the field extractor sees it:
the raw text of each sub-element, `none` when the element is absent.  The
selector fallback chains of scraper.py:255-297 are external markup lookup;
their net effect is the optional text carried here. -/
structure Item where
  titleText : Option (List Char)
  dateText : Option (List Char)
  priceText : Option (List Char)
  shippingText : Option (List Char)
  urlText : Option (List Char)
  locationText : Option (List Char)
deriving DecidableEq

/-- One accepted sale, the `result` dict of scraper.py:303-313. -/
structure SaleRecord where
  title : List Char
  itemPrice : ℚ
  shippingFee : ℚ
  totalPrice : ℚ
  endTime : Option ℤ
  location : List Char
  sourceUrl : Option (List Char)
  setNumber : List Char
deriving DecidableEq

/-- What the per-item body of the scrape loop (scraper.py:232-320) does with
one listing: `skipped` covers every `continue` that touches no counter
(missing title, placeholder card, invalid title, and the caught exception
when the date re-parse raises), `stale` is the out-of-window branch that
increments `old_items_count`, `accepted` appends a record. -/
inductive ItemOutcome where
  | skipped
  | stale
  | accepted (r : SaleRecord)
deriving DecidableEq

/-- The per-item body of scraper.py:232-320 for the listing at position
`idx` (1-based) of page `page`.  Title first: absent → skip; the
`"Shop on eBay"` placeholder on page 1, position 1 → skip; invalid title →
skip.  Then the date: when `is_within_30_days` raises (`none`), the item's
`except` handler turns it into a skip; a stale date is counted; otherwise
prices are parsed and the record is built with `Total Price` set to the sum
of the two parses. -/
def processItem (today : ℤ) (duP : List Char → Option ℤ) (setNumber : List Char)
    (page idx : Nat) (it : Item) : ItemOutcome :=
  match it.titleText with
  | none => .skipped
  | some t0 =>
    let title := pyStrip t0
    if page = 1 ∧ idx = 1 ∧ title = "Shop on eBay".toList then .skipped
    else if is_valid_title title setNumber = false then .skipped
    else
      match is_within_30_days today duP it.dateText with
      | none => .skipped
      | some false => .stale
      | some true =>
        let ip := parse_price it.priceText
        let sc := parse_price it.shippingText
      .accepted
        { title := title
          itemPrice := ip
          shippingFee := sc
          totalPrice := ip + sc
          endTime := parse_date duP it.dateText
          location := it.locationText.getD "Deutschland".toList
          sourceUrl := it.urlText
          setNumber := setNumber }

/-- The loop-carried state of one page scan: `set_results` so far, the two
per-page counters (re-initialised to `0` at the top of every page,
scraper.py:229-230), and the `reached_old_items` flag. -/
structure PageState where
  results : List SaleRecord
  oldCount : Nat
  validCount : Nat
  stopped : Bool
deriving DecidableEq

/-- The `for idx, item in enumerate(items, 1)` loop of scraper.py:232-320.
On a stale item the counter is bumped and, if it has reached 3 while at
least one item on this page was accepted, `reached_old_items` is set and the
loop breaks; an accepted item is appended and counted. -/
def processPage (today : ℤ) (duP : List Char → Option ℤ) (setNumber : List Char)
    (page : Nat) : Nat → PageState → List Item → PageState
  | _, st, [] => st
  | idx, st, it :: rest =>
    match processItem today duP setNumber page idx it with
    | .skipped => processPage today duP setNumber page (idx + 1) st rest
    | .stale =>
      if 3 ≤ st.oldCount + 1 ∧ 0 < st.validCount then
        { st with oldCount := st.oldCount + 1, stopped := true }
      else
        processPage today duP setNumber page (idx + 1)
          { st with oldCount := st.oldCount + 1 } rest
    | .accepted r =>
      processPage today duP setNumber page (idx + 1)
        { st with results := st.results ++ [r], validCount := st.validCount + 1 } rest

/-- The outcome each listing of a page would get (position-aware, since the
placeholder skip looks at `idx`); prefixes of this list describe what the
loop has seen at any moment. -/
def pageOutcomes (today : ℤ) (duP : List Char → Option ℤ) (setNumber : List Char)
    (page : Nat) : Nat → List Item → List ItemOutcome
  | _, [] => []
  | idx, it :: rest =>
    processItem today duP setNumber page idx it ::
      pageOutcomes today duP setNumber page (idx + 1) rest

/-- Number of stale (older-than-window) outcomes. -/
def staleCount (l : List ItemOutcome) : Nat :=
  l.countP (fun o => o matches .stale)

/-- Number of accepted outcomes. -/
def acceptCount (l : List ItemOutcome) : Nat :=
  l.countP (fun o => o matches .accepted _)

/-- The records of the accepted outcomes, in order. -/
def acceptedRecords (l : List ItemOutcome) : List SaleRecord :=
  l.filterMap (fun o => match o with | .accepted r => some r | _ => none)

/-- One rendered results page as the controller consumes it: its listing
nodes and whether a `pagination__next` affordance is present. -/
structure Page where
  items : List Item
  hasNext : Bool
deriving DecidableEq

/-- The `while has_next_page and not reached_old_items` loop of
scraper.py:197-335 for one identifier, over the successive pages the
transport returns (an empty input list models the timeout / no-results
break).  A page with no items breaks; otherwise its items are scanned with
fresh per-page counters; if `reached_old_items` was set the loop breaks,
else it continues exactly when the page advertised a next page. -/
def runPages (today : ℤ) (duP : List Char → Option ℤ) (setNumber : List Char) :
    Nat → List SaleRecord → List Page → List SaleRecord
  | _, acc, [] => acc
  | pageNo, acc, p :: rest =>
    if p.items = [] then acc
    else
      let st := processPage today duP setNumber pageNo 1 ⟨acc, 0, 0, false⟩ p.items
      if st.stopped then st.results
      else if p.hasNext then runPages today duP setNumber (pageNo + 1) st.results rest
      else st.results

/-- The dated output file name `Ebay_Lego_<set>_<start>_<end>_<time>.csv`
(scraper.py:174): identifier, earliest and latest observed sold day, and a
generation timestamp. -/
structure CsvName where
  setNumber : List Char
  startDate : ℤ
  endDate : ℤ
  stamp : ℤ
deriving DecidableEq

/-- `EbayScraper.save_results_to_csv` (scraper.py:162-179).  A `None` or
empty frame returns `None` and writes nothing.  Otherwise the date range is
taken over the `End Time` column: `pd.to_datetime` maps a missing date to
`NaT`, `min`/`max` skip `NaT`, and when every row's date is missing the
resulting `NaT.strftime` raises (`Except.error`); with at least one real
date the file name is formed and its path returned. -/
def save_results_to_csv (df : Option (List SaleRecord)) (setNumber : List Char)
    (stamp : ℤ) : Except Unit (Option CsvName) :=
  match df with
  | none => .ok none
  | some recs =>
    if recs = [] then .ok none
    else
      match recs.filterMap SaleRecord.endTime with
      | [] => .error ()
      | d :: ds =>
        .ok (some { setNumber := setNumber
                    startDate := ds.foldl min d
                    endDate := ds.foldl max d
                    stamp := stamp })

/-- The characters of an optional text (absent text has none). -/
def charsOf : Option (List Char) → List Char
  | none => []
  | some s => s

/-- A fixed-answer stand-in for the external fuzzy date parser, used to
instantiate theorems at concrete inputs. -/
def constDate (d : ℤ) : List Char → Option ℤ := fun _ => some d

/-- A stand-in for the external fuzzy parser on the year-less text
`"Verkauft 31. Dez"`: dateutil defaults the missing year to the current one,
producing day `1010` — in the future of `today = 1000`. -/
def duDec31 : List Char → Option ℤ := fun _ => some 1010

/-- A stand-in for the external fuzzy parser raising on undateable text. -/
def duFail : List Char → Option ℤ := fun _ => none

/-- A stand-in fuzzy parser distinguishing two cleaned date texts: the
October the 2nd one is day `995`, anything else day `900`. -/
def duTwo : List Char → Option ℤ :=
  fun s => if s = "2. Oct".toList then some 995 else some 900

/-- A listing sold on day 995 (within the window when `today = 1000`). -/
def freshItem : Item :=
  { titleText := some "LEGO 75257 Falcon".toList
    dateText := some "Verkauft 2. Okt".toList
    priceText := some "EUR 10".toList
    shippingText := none
    urlText := none
    locationText := none }

/-- A listing sold on day 900 under `duTwo` (far outside the window). -/
def staleItem : Item :=
  { titleText := some "LEGO 75257 Falcon".toList
    dateText := some "Verkauft 1. Sep".toList
    priceText := some "EUR 10".toList
    shippingText := none
    urlText := none
    locationText := none }

/-- A listing with no sold-date element at all. -/
def noDateItem : Item :=
  { titleText := some "LEGO 75257 Falcon".toList
    dateText := none
    priceText := some "EUR 10".toList
    shippingText := none
    urlText := none
    locationText := none }

/-- A listing with a present sold-date text the fuzzy parser cannot date. -/
def badDateItem : Item :=
  { titleText := some "LEGO 75257 Falcon".toList
    dateText := some "Gestern".toList
    priceText := some "EUR 10".toList
    shippingText := none
    urlText := none
    locationText := none }

/-- A page on which one fresh listing is accepted before three stale ones
are rejected. -/
def stopItems : List Item := [freshItem, staleItem, staleItem, staleItem]

/-- The record the pipeline builds from `freshItem` at day 995. -/
def freshRec : SaleRecord :=
  { title := "LEGO 75257 Falcon".toList
    itemPrice := parse_price (some "EUR 10".toList)
    shippingFee := parse_price none
    totalPrice := parse_price (some "EUR 10".toList) + parse_price none
    endTime := some 995
    location := "Deutschland".toList
    sourceUrl := none
    setNumber := "75257".toList }

/-- A record whose sold date is missing (as the pipeline accepts for
listings without a date element). -/
def noDateRec : SaleRecord :=
  { title := "LEGO 75257 Falcon".toList
    itemPrice := mkRat 10 1
    shippingFee := 0
    totalPrice := mkRat 10 1
    endTime := none
    location := "Deutschland".toList
    sourceUrl := none
    setNumber := "75257".toList }

end EbayScraper

namespace EbayScraper

/-- C1: the claim reads the same-length check over the SET of distinct digit
runs.  On the title `"LEGO 75257 75257"` with target `"75257"` the set of
runs is the single value `75257`, so the claim accepts, but the code counts
occurrences (`len(same_length_numbers) > 1`) and rejects — the claimed
equivalence fails at this input. -/
theorem C1_counterexample :
    validTitleDistinct "LEGO 75257 75257".toList "75257".toList = true ∧
      is_valid_title "LEGO 75257 75257".toList "75257".toList = false := by
  decide

/-- C1 (amended): the validator accepts a title iff the list of maximal
digit runs, counted with multiplicity, contains exactly one run of the
target's digit length and that run is the target; zero same-length runs, or
a second same-length run even when equal to the first, reject. -/
theorem C1_title_validator (title target : List Char) :
    is_valid_title title target = true ↔
      (digitRuns title).filter (fun n => n.length == target.length) = [target] := by
  unfold is_valid_title
  rcases h : (digitRuns title).filter (fun n => n.length == target.length) with
    _ | ⟨a, _ | ⟨b, t⟩⟩ <;> rw [h] <;> simp

/-- C4: the claim says empty or range-marker price text yields an
undetermined price that drops the record; the code instead returns the
numeric `0` for the empty string and the first numeric token `100` for
`"EUR 100 bis EUR 200"` — there is no undetermined result. -/
theorem C4_counterexample :
    parse_price (some "EUR 100 bis EUR 200".toList) = 100 ∧
      parse_price (some []) = 0 := by
  decide

/-- C4 (amended): absent or empty price text parses to the number `0`, and
text with a range marker parses to its first numeric token
(`"EUR 100 bis EUR 200"` → `100`); a listing with such price text is still
accepted, with that number as its item price — no price shape causes a
drop. -/
theorem C4_price_fallback :
    parse_price none = 0 ∧ parse_price (some []) = 0 ∧
      parse_price (some "EUR 100 bis EUR 200".toList) = 100 ∧
      ∃ r, processItem 1000 (constDate 990) "75257".toList 1 2
            { titleText := some "LEGO 75257 Falcon".toList
              dateText := some "Verkauft 2. Okt".toList
              priceText := some "EUR 100 bis EUR 200".toList
              shippingText := none
              urlText := none
              locationText := none } = .accepted r ∧ r.itemPrice = 100 := by
  refine ⟨by decide, by decide, by decide, ?_⟩
  exact ⟨_, rfl, by decide⟩

/-- C5: with a resolvable sold date `d` (day number) and `today` the day of
`datetime.now()`, the filter accepts exactly when `d` is at most 30 days
old: `(now - date).days <= 30` is `today - 30 ≤ d`, so 30 days back is
included and 31 days back excluded. -/
theorem C5_recency_window (today : ℤ) (duP : List Char → Option ℤ)
    (s : List Char) (d : ℤ) (h : parse_date duP (some s) = some d) :
    is_within_30_days today duP (some s) = some true ↔ today - 30 ≤ d := by
  have hs : ¬ s = [] := by
    intro he
    rw [he] at h
    simp [parse_date] at h
  simp only [is_within_30_days, if_neg hs, h]
  constructor
  · intro hb
    have := of_decide_eq_true (Option.some.inj hb)
    omega
  · intro hd
    have : decide (today - d ≤ 30) = true := decide_eq_true (by omega)
    rw [this]

/-- C5 witness: a sale exactly 30 days old is accepted, one 31 days old is
not. -/
theorem C5_witness :
    (is_within_30_days 1000 (constDate 970) (some "Verkauft 12. Okt".toList) =
        some true ↔ (1000 : ℤ) - 30 ≤ 970) ∧
    (is_within_30_days 1000 (constDate 969) (some "Verkauft 11. Okt".toList) =
        some true ↔ (1000 : ℤ) - 30 ≤ 969) :=
  ⟨C5_recency_window 1000 (constDate 970) "Verkauft 12. Okt".toList 970 (by decide),
   C5_recency_window 1000 (constDate 969) "Verkauft 11. Okt".toList 969 (by decide)⟩

/-- C7: the claim says a fuzzy-parsed month/day in the future is rolled back
a year so the result is never in the future.  `parse_date` contains no such
adjustment: with the parser defaulting a year-less December date to the
current year (day 1010, ten days after `today = 1000`), the returned date is
in the future, unrolled. -/
theorem C7_counterexample :
    parse_date duDec31 (some "Verkauft 31. Dez".toList) = some 1010 ∧
      (1000 : ℤ) < 1010 := by
  decide

/-- C7 (amended): `parse_date` performs no year adjustment at all — on
non-empty text it returns exactly what the external fuzzy parser produced on
the cleaned text, future or not. -/
theorem C7_no_year_rollback (duP : List Char → Option ℤ) (s : List Char)
    (h : s ≠ []) : parse_date duP (some s) = duP (cleanDate s) := by
  simp [parse_date, h]

/-- C7 witness: the no-adjustment identity evaluated on the future-dated
December text. -/
theorem C7_witness :
    parse_date duDec31 (some "Verkauft 31. Dez".toList) =
      duDec31 (cleanDate "Verkauft 31. Dez".toList) :=
  C7_no_year_rollback duDec31 "Verkauft 31. Dez".toList (by decide)

/-- C2: the claim says a listing with ABSENT sold-date text is dropped and
no record with a null `soldDate` reaches the result collection.  But
`is_within_30_days` accepts falsy date input outright ("Accept items
without dates for now"), so a run over one dateless listing yields exactly
one record, and its sold date is null. -/
theorem C2_counterexample :
    (runPages 1000 (constDate 990) "75257".toList 1 []
        [{ items := [noDateItem], hasNext := false }]).map SaleRecord.endTime =
      [none] := by
  decide

/-- C2 (amended): only listings whose sold-date text is PRESENT but
unparsable are dropped — the re-parse inside `is_within_30_days` raises and
the per-item handler skips the listing; a listing with absent sold-date
text is not dropped, and any record built from it carries a null
`soldDate`. -/
theorem C2_unparsable_date_drop (today : ℤ) (duP : List Char → Option ℤ)
    (sn : List Char) (pg idx : Nat) (it : Item) :
    (∀ s, it.dateText = some s → s ≠ [] → duP (cleanDate s) = none →
        processItem today duP sn pg idx it = .skipped) ∧
    (it.dateText = none → ∀ r, processItem today duP sn pg idx it = .accepted r →
        r.endTime = none) := by
  constructor
  · intro s hs hne hdu
    unfold processItem
    cases ht : it.titleText with
    | none => rfl
    | some t0 =>
      simp only [hs, is_within_30_days, parse_date, if_neg hne, hdu, ite_self]
  · intro h0 r hacc
    unfold processItem at hacc
    cases ht : it.titleText with
    | none => rw [ht] at hacc; cases hacc
    | some t0 =>
      rw [ht, h0] at hacc
      simp only [is_within_30_days] at hacc
      split at hacc
      · cases hacc
      · split at hacc
        · cases hacc
        · injection hacc with h
          rw [← h]
          rfl

/-- C2 witness: a listing whose date text `"Gestern"` the fuzzy parser
cannot date is skipped. -/
theorem C2_witness :
    processItem 1000 duFail "75257".toList 1 2 badDateItem = .skipped :=
  (C2_unparsable_date_drop 1000 duFail "75257".toList 1 2 badDateItem).1
    "Gestern".toList rfl (by decide) rfl

/-- C3: the claim asserts a per-identifier seen-set keeps at most one record
per `(title, price, soldDate)` fingerprint.  No such set exists: feeding
the same listing twice in one page yields two records with the identical
fingerprint in the final collection. -/
theorem C3_counterexample :
    (runPages 1000 (constDate 995) "75257".toList 1 []
        [{ items := [freshItem, freshItem], hasNext := false }]).map
      (fun r => (r.title, r.itemPrice, r.endTime)) =
      [("LEGO 75257 Falcon".toList, mkRat 10 1, some 995),
       ("LEGO 75257 Falcon".toList, mkRat 10 1, some 995)] := by
  decide

/-- Helper: as long as the early-stop flag never fires, the page scan
appends exactly the records of its accepted outcomes, in order, to whatever
was accumulated — one record per accepted listing, duplicates included. -/
theorem processPage_results_eq (today : ℤ) (duP : List Char → Option ℤ)
    (sn : List Char) (pg : Nat) :
    ∀ (items : List Item) (idx : Nat) (st : PageState), st.stopped = false →
      (processPage today duP sn pg idx st items).stopped = false →
      (processPage today duP sn pg idx st items).results =
        st.results ++ acceptedRecords (pageOutcomes today duP sn pg idx items) := by
  intro items
  induction items with
  | nil =>
    intro idx st h0 hf
    simp [processPage, pageOutcomes, acceptedRecords]
  | cons it rest ih =>
    intro idx st h0 hf
    rw [processPage] at hf ⊢
    rw [pageOutcomes]
    cases ho : processItem today duP sn pg idx it with
    | skipped =>
      rw [ho] at hf
      dsimp only at hf ⊢
      rw [ih (idx + 1) st h0 hf]
      simp [acceptedRecords]
    | stale =>
      rw [ho] at hf
      dsimp only at hf ⊢
      by_cases hc : 3 ≤ st.oldCount + 1 ∧ 0 < st.validCount
      · rw [if_pos hc] at hf
        simp at hf
      · rw [if_neg hc] at hf ⊢
        rw [ih (idx + 1) { st with oldCount := st.oldCount + 1 } h0 hf]
        simp [acceptedRecords]
    | accepted r =>
      rw [ho] at hf
      dsimp only at hf ⊢
      rw [ih (idx + 1)
        { st with results := st.results ++ [r], validCount := st.validCount + 1 } h0 hf]
      simp [acceptedRecords]

/-- C3 (amended): there is no deduplication anywhere in the run — when a
page finishes without the early stop, its contribution to the collection is
exactly the list of records of its accepted listings, with multiplicity, so
n same-fingerprint listings give n records. -/
theorem C3_no_dedup (today : ℤ) (duP : List Char → Option ℤ) (sn : List Char)
    (pg : Nat) (acc : List SaleRecord) (items : List Item)
    (h : (processPage today duP sn pg 1 ⟨acc, 0, 0, false⟩ items).stopped = false) :
    (processPage today duP sn pg 1 ⟨acc, 0, 0, false⟩ items).results =
      acc ++ acceptedRecords (pageOutcomes today duP sn pg 1 items) :=
  processPage_results_eq today duP sn pg items 1 ⟨acc, 0, 0, false⟩ rfl h

/-- C3 witness: the no-dedup identity on the duplicated-listing page. -/
theorem C3_witness :
    (processPage 1000 (constDate 995) "75257".toList 1 1 ⟨[], 0, 0, false⟩
        [freshItem, freshItem]).results =
      [] ++ acceptedRecords (pageOutcomes 1000 (constDate 995) "75257".toList 1 1
        [freshItem, freshItem]) :=
  C3_no_dedup 1000 (constDate 995) "75257".toList 1 [] [freshItem, freshItem]
    (by decide)

/-- Unfolding lemmas for the stale counter. -/
@[simp] theorem staleCount_nil : staleCount [] = 0 := rfl

/-- A stale outcome bumps the stale count. -/
@[simp] theorem staleCount_cons_stale (l : List ItemOutcome) :
    staleCount (ItemOutcome.stale :: l) = staleCount l + 1 := by
  simp [staleCount, List.countP_cons]

/-- A skipped outcome leaves the stale count. -/
@[simp] theorem staleCount_cons_skipped (l : List ItemOutcome) :
    staleCount (ItemOutcome.skipped :: l) = staleCount l := by
  simp [staleCount, List.countP_cons]

/-- An accepted outcome leaves the stale count. -/
@[simp] theorem staleCount_cons_accepted (r : SaleRecord) (l : List ItemOutcome) :
    staleCount (ItemOutcome.accepted r :: l) = staleCount l := by
  simp [staleCount, List.countP_cons]

/-- Unfolding lemmas for the acceptance counter. -/
@[simp] theorem acceptCount_nil : acceptCount [] = 0 := rfl

/-- A stale outcome leaves the acceptance count. -/
@[simp] theorem acceptCount_cons_stale (l : List ItemOutcome) :
    acceptCount (ItemOutcome.stale :: l) = acceptCount l := by
  simp [acceptCount, List.countP_cons]

/-- A skipped outcome leaves the acceptance count. -/
@[simp] theorem acceptCount_cons_skipped (l : List ItemOutcome) :
    acceptCount (ItemOutcome.skipped :: l) = acceptCount l := by
  simp [acceptCount, List.countP_cons]

/-- An accepted outcome bumps the acceptance count. -/
@[simp] theorem acceptCount_cons_accepted (r : SaleRecord) (l : List ItemOutcome) :
    acceptCount (ItemOutcome.accepted r :: l) = acceptCount l + 1 := by
  simp [acceptCount, List.countP_cons]

/-- Helper: the early-stop flag at the end of a page scan started in state
`st` (flag clear) is set iff some prefix of the page's outcome sequence ends
in a stale rejection at whose point the stale total (offset by the incoming
counter) has reached 3 while at least one acceptance has been counted. -/
theorem processPage_stopped_iff (today : ℤ) (duP : List Char → Option ℤ)
    (sn : List Char) (pg : Nat) :
    ∀ (items : List Item) (idx : Nat) (st : PageState), st.stopped = false →
      ((processPage today duP sn pg idx st items).stopped = true ↔
        ∃ p, p <+: pageOutcomes today duP sn pg idx items ∧
          p.getLast? = some ItemOutcome.stale ∧
          3 ≤ st.oldCount + staleCount p ∧ 1 ≤ st.validCount + acceptCount p) := by
  intro items
  induction items with
  | nil =>
    intro idx st h0
    rw [processPage, pageOutcomes, h0]
    simp [List.prefix_nil]
  | cons it rest ih =>
    intro idx st h0
    rw [processPage, pageOutcomes]
    cases ho : processItem today duP sn pg idx it with
    | skipped =>
      dsimp only
      rw [ih (idx + 1) st h0]
      constructor
      · rintro ⟨q, hq, hl, h3, h1⟩
        refine ⟨ItemOutcome.skipped :: q, ?_, ?_, ?_, ?_⟩
        · rw [List.prefix_cons_iff]
          exact Or.inr ⟨q, rfl, hq⟩
        · cases q with
          | nil => simp at hl
          | cons x xs => rw [List.getLast?_cons_cons]; exact hl
        · simp only [staleCount_cons_skipped]
          exact h3
        · simp only [acceptCount_cons_skipped]
          exact h1
      · rintro ⟨p, hp, hl, h3, h1⟩
        rcases List.prefix_cons_iff.mp hp with rfl | ⟨q, rfl, hq⟩
        · simp at hl
        · cases q with
          | nil => simp at hl
          | cons x xs =>
            rw [List.getLast?_cons_cons] at hl
            refine ⟨x :: xs, hq, hl, ?_, ?_⟩
            · simp only [staleCount_cons_skipped] at h3
              exact h3
            · simp only [acceptCount_cons_skipped] at h1
              exact h1
    | accepted r =>
      dsimp only
      rw [ih (idx + 1)
        { st with results := st.results ++ [r], validCount := st.validCount + 1 } h0]
      dsimp only
      constructor
      · rintro ⟨q, hq, hl, h3, h1⟩
        refine ⟨ItemOutcome.accepted r :: q, ?_, ?_, ?_, ?_⟩
        · rw [List.prefix_cons_iff]
          exact Or.inr ⟨q, rfl, hq⟩
        · cases q with
          | nil => simp at hl
          | cons x xs => rw [List.getLast?_cons_cons]; exact hl
        · simp only [staleCount_cons_accepted]
          exact h3
        · simp only [acceptCount_cons_accepted]
          omega
      · rintro ⟨p, hp, hl, h3, h1⟩
        rcases List.prefix_cons_iff.mp hp with rfl | ⟨q, rfl, hq⟩
        · simp at hl
        · cases q with
          | nil => simp at hl
          | cons x xs =>
            rw [List.getLast?_cons_cons] at hl
            refine ⟨x :: xs, hq, hl, ?_, ?_⟩
            · simp only [staleCount_cons_accepted] at h3
              exact h3
            · simp only [acceptCount_cons_accepted] at h1
              omega
    | stale =>
      dsimp only
      by_cases hc : 3 ≤ st.oldCount + 1 ∧ 0 < st.validCount
      · rw [if_pos hc]
        constructor
        · intro _
          refine ⟨[ItemOutcome.stale], ?_, rfl, ?_, ?_⟩
          · rw [List.prefix_cons_iff]
            exact Or.inr ⟨[], rfl, List.nil_prefix⟩
          · simp only [staleCount_cons_stale, staleCount_nil]
            omega
          · simp only [acceptCount_cons_stale, acceptCount_nil]
            omega
        · intro _
          rfl
      · rw [if_neg hc]
        rw [ih (idx + 1) { st with oldCount := st.oldCount + 1 } h0]
        dsimp only
        constructor
        · rintro ⟨q, hq, hl, h3, h1⟩
          refine ⟨ItemOutcome.stale :: q, ?_, ?_, ?_, ?_⟩
          · rw [List.prefix_cons_iff]
            exact Or.inr ⟨q, rfl, hq⟩
          · cases q with
            | nil => simp at hl
            | cons x xs => rw [List.getLast?_cons_cons]; exact hl
          · simp only [staleCount_cons_stale]
            omega
          · simp only [acceptCount_cons_stale]
            exact h1
        · rintro ⟨p, hp, hl, h3, h1⟩
          rcases List.prefix_cons_iff.mp hp with rfl | ⟨q, rfl, hq⟩
          · simp at hl
          · cases q with
            | nil =>
              simp only [staleCount_cons_stale, staleCount_nil,
                acceptCount_cons_stale, acceptCount_nil] at h3 h1
              exact absurd ⟨by omega, by omega⟩ hc
            | cons x xs =>
              rw [List.getLast?_cons_cons] at hl
              refine ⟨x :: xs, hq, hl, ?_, ?_⟩
              · simp only [staleCount_cons_stale] at h3
                omega
              · simp only [acceptCount_cons_stale] at h1
                exact h1

/-- C6: during one identifier's pagination, a page scanned with freshly
reset per-page counters raises the early-stop signal iff some prefix of its
outcome sequence ends in an older-than-window rejection at whose point the
page's stale count has reached 3 and at least one record of the page was
already accepted; when the signal is up the controller fetches no further
page even though a next page exists, and when it is down pagination follows
`has_next_page`. -/
theorem C6_early_stop (today : ℤ) (duP : List Char → Option ℤ) (sn : List Char)
    (pg : Nat) (acc : List SaleRecord) (items : List Item) (rest : List Page) :
    ((processPage today duP sn pg 1 ⟨acc, 0, 0, false⟩ items).stopped = true ↔
      ∃ p, p <+: pageOutcomes today duP sn pg 1 items ∧
        p.getLast? = some ItemOutcome.stale ∧
        3 ≤ staleCount p ∧ 1 ≤ acceptCount p) ∧
    (items ≠ [] →
      (processPage today duP sn pg 1 ⟨acc, 0, 0, false⟩ items).stopped = true →
      runPages today duP sn pg acc ({ items := items, hasNext := true } :: rest) =
        (processPage today duP sn pg 1 ⟨acc, 0, 0, false⟩ items).results) ∧
    (items ≠ [] →
      (processPage today duP sn pg 1 ⟨acc, 0, 0, false⟩ items).stopped = false →
      runPages today duP sn pg acc ({ items := items, hasNext := true } :: rest) =
        runPages today duP sn (pg + 1)
          (processPage today duP sn pg 1 ⟨acc, 0, 0, false⟩ items).results rest) := by
  refine ⟨?_, ?_, ?_⟩
  · have h := processPage_stopped_iff today duP sn pg items 1 ⟨acc, 0, 0, false⟩ rfl
    simpa using h
  · intro hne hs
    rw [runPages]
    dsimp only
    rw [if_neg hne, if_pos hs]
  · intro hne hs
    rw [runPages]
    dsimp only
    rw [if_neg hne, hs]
    simp

/-- C6 witness: on a page with one fresh acceptance followed by three stale
rejections the signal fires and pagination halts despite a next page; on a
page with only the fresh listing it does not and the next page is
fetched. -/
theorem C6_witness :
    (runPages 1000 duTwo "75257".toList 1 []
        [{ items := stopItems, hasNext := true }] =
      (processPage 1000 duTwo "75257".toList 1 1 ⟨[], 0, 0, false⟩ stopItems).results) ∧
    (runPages 1000 duTwo "75257".toList 1 []
        [{ items := [freshItem], hasNext := true }] =
      runPages 1000 duTwo "75257".toList 2
        (processPage 1000 duTwo "75257".toList 1 1 ⟨[], 0, 0, false⟩ [freshItem]).results
        []) ∧
    ((processPage 1000 duTwo "75257".toList 1 1 ⟨[], 0, 0, false⟩ stopItems).stopped =
        true ↔
      ∃ p, p <+: pageOutcomes 1000 duTwo "75257".toList 1 1 stopItems ∧
        p.getLast? = some ItemOutcome.stale ∧
        3 ≤ staleCount p ∧ 1 ≤ acceptCount p) :=
  ⟨(C6_early_stop 1000 duTwo "75257".toList 1 [] stopItems []).2.1
      (by decide) (by decide),
   (C6_early_stop 1000 duTwo "75257".toList 1 [] [freshItem] []).2.2
      (by decide) (by decide),
   (C6_early_stop 1000 duTwo "75257".toList 1 [] stopItems []).1⟩

/-- Helper: a record built by the item step has its total set to the sum of
the two parsed prices. -/
theorem processItem_accepted_total (today : ℤ) (duP : List Char → Option ℤ)
    (sn : List Char) (pg idx : Nat) (it : Item) (r : SaleRecord)
    (h : processItem today duP sn pg idx it = ItemOutcome.accepted r) :
    r.totalPrice = r.itemPrice + r.shippingFee := by
  unfold processItem at h
  cases ht : it.titleText with
  | none => rw [ht] at h; cases h
  | some t0 =>
    rw [ht] at h
    dsimp only at h
    repeat' split at h
    all_goals first
      | (injection h with h1; subst h1; rfl)
      | cases h

/-- Helper: the page scan preserves the total-price invariant of the
accumulated records. -/
theorem processPage_total_inv (today : ℤ) (duP : List Char → Option ℤ)
    (sn : List Char) (pg : Nat) :
    ∀ (items : List Item) (idx : Nat) (st : PageState),
      (∀ r ∈ st.results, r.totalPrice = r.itemPrice + r.shippingFee) →
      ∀ r ∈ (processPage today duP sn pg idx st items).results,
        r.totalPrice = r.itemPrice + r.shippingFee := by
  intro items
  induction items with
  | nil => intro idx st hst r hr; exact hst r hr
  | cons it rest ih =>
    intro idx st hst r hr
    rw [processPage] at hr
    cases ho : processItem today duP sn pg idx it with
    | skipped =>
      rw [ho] at hr
      exact ih (idx + 1) st hst r hr
    | stale =>
      rw [ho] at hr
      by_cases hc : 3 ≤ st.oldCount + 1 ∧ 0 < st.validCount
      · rw [if_pos hc] at hr
        exact hst r hr
      · rw [if_neg hc] at hr
        exact ih (idx + 1) { st with oldCount := st.oldCount + 1 } hst r hr
    | accepted r0 =>
      rw [ho] at hr
      refine ih (idx + 1)
        { st with results := st.results ++ [r0], validCount := st.validCount + 1 }
        ?_ r hr
      intro r1 hr1
      rcases List.mem_append.mp hr1 with h1 | h2
      · exact hst r1 h1
      · rw [List.mem_singleton.mp h2]
        exact processItem_accepted_total today duP sn pg idx it r0 ho

/-- Helper: the pagination loop preserves the total-price invariant. -/
theorem runPages_total_inv (today : ℤ) (duP : List Char → Option ℤ)
    (sn : List Char) :
    ∀ (pages : List Page) (pg : Nat) (acc : List SaleRecord),
      (∀ r ∈ acc, r.totalPrice = r.itemPrice + r.shippingFee) →
      ∀ r ∈ runPages today duP sn pg acc pages,
        r.totalPrice = r.itemPrice + r.shippingFee := by
  intro pages
  induction pages with
  | nil => intro pg acc hacc r hr; exact hacc r hr
  | cons p rest ih =>
    intro pg acc hacc r hr
    rw [runPages] at hr
    by_cases hi : p.items = []
    · rw [if_pos hi] at hr
      exact hacc r hr
    · rw [if_neg hi] at hr
      dsimp only at hr
      by_cases hs : (processPage today duP sn pg 1 ⟨acc, 0, 0, false⟩ p.items).stopped = true
      · rw [if_pos hs] at hr
        exact processPage_total_inv today duP sn pg p.items 1 ⟨acc, 0, 0, false⟩ hacc r hr
      · rw [if_neg hs] at hr
        by_cases hn : p.hasNext = true
        · rw [if_pos hn] at hr
          exact ih (pg + 1) _
            (processPage_total_inv today duP sn pg p.items 1 ⟨acc, 0, 0, false⟩ hacc) r hr
        · rw [if_neg hn] at hr
          exact processPage_total_inv today duP sn pg p.items 1 ⟨acc, 0, 0, false⟩ hacc r hr

/-- C8: every record the pagination run puts into an identifier's result
collection satisfies `Total Price = Item Price + Shipping Fee` exactly (the
sum is formed at construction, scraper.py:300-313). -/
theorem C8_total_price (today : ℤ) (duP : List Char → Option ℤ) (sn : List Char)
    (pages : List Page) (r : SaleRecord)
    (h : r ∈ runPages today duP sn 1 [] pages) :
    r.totalPrice = r.itemPrice + r.shippingFee :=
  runPages_total_inv today duP sn pages 1 [] (by intro r1 h1; cases h1) r h

/-- C8 witness: the invariant on the record scraped from the concrete fresh
listing. -/
theorem C8_witness :
    freshRec.totalPrice = freshRec.itemPrice + freshRec.shippingFee :=
  C8_total_price 1000 (constDate 995) "75257".toList
    [{ items := [freshItem], hasNext := false }] freshRec
    (by
      have he : runPages 1000 (constDate 995) "75257".toList 1 []
          [{ items := [freshItem], hasNext := false }] = [freshRec] := rfl
      rw [he]
      exact List.mem_singleton.mpr rfl)

/-- C9: the claim promises a file path for EVERY non-empty collection, but a
non-empty collection in which no record carries a sold date makes the
writer's `min` produce `NaT` and `NaT.strftime` raise — no path is
returned. -/
theorem C9_counterexample :
    save_results_to_csv (some [noDateRec]) "75257".toList 5 = Except.error () := by
  rfl

/-- C9 (amended): writing a `None` or empty collection is a no-op returning
no path; a non-empty collection with at least one dated record yields the
path of the written file; a non-empty collection whose records all lack
dates raises instead of returning a path. -/
theorem C9_persistence_writer (sn : List Char) (stamp : ℤ)
    (recs : List SaleRecord) (hne : recs ≠ [])
    (hd : recs.filterMap SaleRecord.endTime ≠ []) :
    save_results_to_csv none sn stamp = Except.ok none ∧
    save_results_to_csv (some []) sn stamp = Except.ok none ∧
    ∃ f, save_results_to_csv (some recs) sn stamp = Except.ok (some f) := by
  refine ⟨rfl, rfl, ?_⟩
  unfold save_results_to_csv
  dsimp only
  rw [if_neg hne]
  rcases h : recs.filterMap SaleRecord.endTime with _ | ⟨d, ds⟩
  · exact absurd h hd
  · exact ⟨_, rfl⟩

/-- C9 witness: the writer on the empty inputs and on a one-record dated
collection. -/
theorem C9_witness :
    save_results_to_csv none "75257".toList 7 = Except.ok none ∧
    save_results_to_csv (some []) "75257".toList 7 = Except.ok none ∧
    ∃ f, save_results_to_csv (some [freshRec]) "75257".toList 7 =
      Except.ok (some f) :=
  C9_persistence_writer "75257".toList 7 [freshRec] (by decide) (by decide)

/-- Helper: every character a replacement pass emits comes from the
replacement text or from the input. -/
theorem mem_replacePatAux (pat rep : List Char) :
    ∀ (fuel : Nat) (s : List Char) (c : Char),
      c ∈ replacePatAux pat rep fuel s → c ∈ rep ∨ c ∈ s := by
  intro fuel
  induction fuel with
  | zero => intro s c h; exact Or.inr h
  | succ n ih =>
    intro s c h
    cases s with
    | nil =>
      simp only [replacePatAux] at h
      cases h
    | cons x xs =>
      cases pat with
      | nil => exact Or.inr h
      | cons p ps =>
        simp only [replacePatAux] at h
        split at h
        · rcases List.mem_append.mp h with h1 | h2
          · exact Or.inl h1
          · rcases ih _ _ h2 with h3 | h4
            · exact Or.inl h3
            · exact Or.inr (List.mem_cons_of_mem x (List.mem_of_mem_drop h4))
        · rcases List.mem_cons.mp h with h1 | h2
          · exact Or.inr (h1 ▸ List.mem_cons_self x xs)
          · rcases ih _ _ h2 with h3 | h4
            · exact Or.inl h3
            · exact Or.inr (List.mem_cons_of_mem x h4)

/-- Helper: stripping only removes characters. -/
theorem mem_pyStrip (s : List Char) (c : Char) (h : c ∈ pyStrip s) : c ∈ s := by
  unfold pyStrip at h
  rw [List.mem_reverse] at h
  have h2 : c ∈ (s.dropWhile Char.isWhitespace).reverse :=
    (List.dropWhile_sublist _).mem h
  rw [List.mem_reverse] at h2
  exact (List.dropWhile_sublist _).mem h2

/-- Helper: the price normalisation (currency removal, strip, comma-to-dot)
creates no digit: a digit-free raw text stays digit-free. -/
theorem clean_price_no_digit (s : List Char) (h : ∀ c ∈ s, isDig c = false) :
    ∀ c ∈ (pyStrip (replacePat "€".toList []
        (replacePat "EUR".toList [] s))).map (fun c => if c = ',' then '.' else c),
      isDig c = false := by
  intro c hc
  rcases List.mem_map.mp hc with ⟨a, ha, rfl⟩
  have ha2 := mem_pyStrip _ _ ha
  unfold replacePat at ha2
  rcases mem_replacePatAux _ _ _ _ _ ha2 with h1 | h2
  · cases h1
  · rcases mem_replacePatAux _ _ _ _ _ h2 with h3 | h4
    · cases h3
    · by_cases hcomma : a = ','
      · rw [if_pos hcomma]
        decide
      · rw [if_neg hcomma]
        exact h a h4

/-- Helper: parsed numeric tokens are nonnegative. -/
theorem ratOfParts_nonneg (ip fp : List Char) : 0 ≤ ratOfParts ip fp := by
  unfold ratOfParts
  rw [Rat.mkRat_eq_div]
  positivity

/-- Helper: any value the numeric-token search returns is nonnegative. -/
theorem searchNum_nonneg (s : List Char) (q : ℚ) (h : searchNum s = some q) :
    0 ≤ q := by
  unfold searchNum at h
  split at h
  · cases h
  · injection h with h1
    rw [← h1]
    exact ratOfParts_nonneg _ _

/-- Helper: the token-or-zero fallback of `parse_price` is nonnegative. -/
theorem searchNumD_nonneg (s : List Char) :
    0 ≤ match searchNum s with | none => 0 | some q => q := by
  cases hq : searchNum s with
  | none => exact le_refl 0
  | some q => exact searchNum_nonneg s q hq

/-- C10: `parse_price` is total and never raises — every input, missing text
and arbitrary garbage included, yields a nonnegative number, and any input
without a digit yields exactly 0, so downstream an unparsable price is
indistinguishable from a genuine zero price. -/
theorem C10_price_parser_safety (o : Option (List Char)) :
    0 ≤ parse_price o ∧
      ((∀ c ∈ charsOf o, isDig c = false) → parse_price o = 0) := by
  constructor
  · cases o with
    | none => exact le_refl 0
    | some s =>
      rw [parse_price]
      by_cases hs : s = []
      · rw [if_pos hs]
      · rw [if_neg hs]
        exact searchNumD_nonneg _
  · intro hnd
    cases o with
    | none => rfl
    | some s =>
      rw [parse_price]
      by_cases hs : s = []
      · rw [if_pos hs]
      · rw [if_neg hs]
        have hall : ∀ c ∈ (pyStrip (replacePat "€".toList []
            (replacePat "EUR".toList [] s))).map (fun c => if c = ',' then '.' else c),
            (!(isDig c)) = true := by
          intro c hc
          rw [Bool.not_eq_true']
          exact clean_price_no_digit s hnd c hc
        have hdrop := List.dropWhile_eq_nil_iff.mpr hall
        unfold searchNum
        rw [hdrop]

/-- C10 witness: the free-shipping phrase parses to a nonnegative value that
is exactly 0. -/
theorem C10_witness :
    0 ≤ parse_price (some "Kostenloser Versand".toList) ∧
      parse_price (some "Kostenloser Versand".toList) = 0 :=
  ⟨(C10_price_parser_safety (some "Kostenloser Versand".toList)).1,
   (C10_price_parser_safety (some "Kostenloser Versand".toList)).2 (by decide)⟩

end EbayScraper
